import Mathlib

/-!
# Verification of the libcmdapp option-parsing core

A shallow embedding of `src/cmdapp.c`: the behavior-grammar compiler
(`ca_parse_opt_behavior`), option registration (`ca_opt`), the argument
scanner (`ca_construct_results` with its helpers `ca_parsed_opt` /
`ca_parsed_arg`), the constraint verifier (`ca_verify_results`) and the
dispatch phase of `ca_parse`.

C strings are modelled as `List Char`; out-of-range indexing yields the
NUL character, matching null-terminated string access.  The mutable
`struct ca_app` fields touched by the scanner (`options`, `results`,
`options_count`) are gathered in an explicit `ScanState` that is threaded
through the functions.  Options inside a `ParseResult` are identified by
their index in the registry, which is how the C code's pointer identity
behaves (pointers into the `app.options` array).
-/

/-- The NUL character terminating C strings. -/
def nullc : Char := Char.ofNat 0

/-- `s[i]` on a C string: the character at `i`, or NUL at/after the end. -/
def chAt (s : List Char) (i : Nat) : Char := s.getD i nullc

/-- `strchr(set, c) != NULL`: true when `c` occurs in `set` or `c` is NUL
(`strchr` finds the terminator in that case). -/
def strchrFound (set : List Char) (c : Char) : Bool :=
  c = nullc || set.contains c

/-- `isalnum`, used by `ca_is_short_flag` (`cmdapp.c:84`). -/
def ca_is_short_flag (c : Char) : Bool := c.isAlphanum

/-- `enum ca_opt_quantifier` (`cmdapp.h:196`). -/
inductive Quantifier
  | noneQ
  | allQ
  | anyQ
  | onlyQ
deriving DecidableEq, Repr

/-- The subset of `struct ca_opt` fields produced by the behavior
compiler, with the C defaults set in `ca_opt` before parsing.  The three
bits of `opt->flags` are split into booleans. -/
structure BehaviorOut where
  takesArg : Bool := false
  optArg : Bool := false
  mflag : Bool := false
  negated : Bool := false
  quantifier : Quantifier := .noneQ
  refs : List Char := []
deriving DecidableEq, Repr

/-- The skip set `".? \t"` of the quantifier-scanning loop. -/
def skipSet : List Char := ['.', '?', ' ', '\t']

/-- The stop set `"!@&"` of the quantifier-scanning loop. -/
def stopSet : List Char := ['!', '@', '&']

/-- The index computed by the loop at `cmdapp.c:122`:
`while (strchr(".? \t", behavior[i]) != NULL && strchr("!@&", behavior[i]) == NULL) i++;`
Recursion on the remaining characters; at the end of the list the loop
stops, exactly as the C loop stops at the NUL terminator. -/
def skipIdx : List Char → Nat
  | [] => 0
  | c :: rest =>
    if strchrFound skipSet c && !(strchrFound stopSet c) then skipIdx rest + 1
    else 0

/-- The quantifier portion of `ca_parse_opt_behavior` (`cmdapp.c:120`
onward): skip loop from index 0, optional `!`, the quantifier switch, and
the refs-tail validation.  `none` models a nonzero return. -/
def quantPart (o : BehaviorOut) (behavior : List Char) : Option BehaviorOut :=
  let i0 := skipIdx behavior
  let neg := chAt behavior i0 = '!'
  let i := if neg then i0 + 1 else i0
  let q : Option Quantifier :=
    if chAt behavior i = '@' then some .anyQ
    else if chAt behavior i = '&' then some .allQ
    else if chAt behavior i = '<' then some .onlyQ
    else none
  match q with
  | none => none
  | some q =>
    let refs := behavior.drop (i + 1)
    if refs.all ca_is_short_flag then
      some { o with negated := neg, quantifier := q, refs := refs }
    else none

/-- `ca_parse_opt_behavior` (`cmdapp.c:90`).  `some` is a zero return with
the resulting fields; `none` is a nonzero (failure) return. -/
def ca_parse_opt_behavior (behavior : List Char) : Option BehaviorOut :=
  if chAt behavior 0 = nullc then some {}
  else if chAt behavior 0 = '.' then
    let o1 : BehaviorOut := { takesArg := true }
    if chAt behavior 1 = '?' then
      let o2 : BehaviorOut := { o1 with optArg := true }
      if chAt behavior 2 = nullc then some o2 else quantPart o2 behavior
    else if chAt behavior 1 = nullc then some o1
    else if chAt behavior 2 = nullc then some o1
    else quantPart o1 behavior
  else if chAt behavior 0 = '*' then
    let o1 : BehaviorOut := { mflag := true }
    if chAt behavior 1 = nullc then some o1 else quantPart o1 behavior
  else quantPart {} behavior

/-- `struct ca_opt` (`cmdapp.h:205`), with `flags` split into booleans and
display-only fields kept where a claim needs them (`arg_name`). -/
structure CaOpt where
  short_opt : Char
  long_opt : List Char
  takesArg : Bool
  optArg : Bool
  mflag : Bool
  negated : Bool
  quantifier : Quantifier
  refs : List Char
  arg_name : Option (List Char)
  was_passed : Bool
deriving DecidableEq, Repr

/-- A default `CaOpt` used only for out-of-range `getD` reads that the
lookup functions never actually produce. -/
def defaultOpt : CaOpt :=
  { short_opt := nullc, long_opt := [], takesArg := false, optArg := false,
    mflag := false, negated := false, quantifier := .noneQ, refs := [],
    arg_name := none, was_passed := false }

/-- Read the option at registry index `k`. -/
def getOpt (opts : List CaOpt) (k : Nat) : CaOpt := opts.getD k defaultOpt

/-- `ca_lookup_opt(flag, NULL)` (`cmdapp.c:166`): first registered option
with the given short code.  The cache array in the C code is a local
variable reinitialised on every call, so the observable behavior is the
plain linear scan.  The result is the index of the found option. -/
def lookupShort (opts : List CaOpt) (flag : Char) : Option Nat :=
  match opts with
  | [] => none
  | o :: rest =>
    if o.short_opt = flag then some 0
    else (lookupShort rest flag).map (· + 1)

/-- `ca_lookup_opt('\0', name)` (`cmdapp.c:182`): first registered option
with the given long name. -/
def lookupLong (opts : List CaOpt) (name : List Char) : Option Nat :=
  match opts with
  | [] => none
  | o :: rest =>
    if o.long_opt = name then some 0
    else (lookupLong rest name).map (· + 1)

/-- `struct ca_parse_result` (`cmdapp.h:229`): the option is identified by
its registry index (pointer identity in C); either field may be absent. -/
structure PResult where
  opt : Option Nat
  arg : Option (List Char)
deriving DecidableEq, Repr

/-- The scanner-visible mutable state of `struct ca_app`: the options
array (whose `was_passed` fields the scan mutates), the results array and
`options_count`. -/
structure ScanState where
  options : List CaOpt
  results : List PResult
  options_count : Nat
deriving DecidableEq, Repr

/-- Set `was_passed` of the option at index `k`. -/
def setPassed (opts : List CaOpt) (k : Nat) : List CaOpt :=
  opts.set k { getOpt opts k with was_passed := true }

/-- `ca_parsed_opt` (`cmdapp.c:404`): push `{opt, arg}`, set `was_passed`,
and increment `options_count`. -/
def ca_parsed_opt (st : ScanState) (k : Nat) (arg : Option (List Char)) :
    ScanState :=
  { options := setPassed st.options k,
    results := st.results ++ [{ opt := some k, arg := arg }],
    options_count := st.options_count + 1 }

/-- `ca_parsed_arg` (`cmdapp.c:415`): if a pending option exists, the
token becomes its argument (setting `was_passed`, clearing the pending
option, and NOT incrementing `options_count`); otherwise a bare positional
result is pushed.  Returns the new state and the new pending option. -/
def ca_parsed_arg (st : ScanState) (last : Option Nat) (arg : List Char) :
    ScanState × Option Nat :=
  match last with
  | some k =>
    ({ options := setPassed st.options k,
       results := st.results ++ [{ opt := some k, arg := some arg }],
       options_count := st.options_count }, none)
  | none =>
    ({ st with results := st.results ++ [{ opt := none, arg := some arg }] },
     none)

/-- The scan failures of `ca_construct_results` (each corresponds to one
`ca_print_error` call followed by `return 1`). -/
inductive ScanErr
  | missingRequiredArg (long : List Char)
  | unknownShortFlag (c : Char)
  | unknownLongFlag (name : List Char)
  | mustBePassedSeparately (c : Char)
  | doesNotTakeArguments (c : Char)
deriving DecidableEq, Repr

/-- The validation loop over the trailing bundle characters
(`cmdapp.c:506`): every character after the first must resolve to a
registered multiflag option before anything is emitted. -/
def validateBundle (opts : List CaOpt) : List Char → Except ScanErr Unit
  | [] => .ok ()
  | c :: rest =>
    match lookupShort opts c with
    | none => .error (.unknownShortFlag c)
    | some k =>
      if (getOpt opts k).mflag then validateBundle opts rest
      else .error (.mustBePassedSeparately c)

/-- The emission loop (`cmdapp.c:519`): every character of the token after
the `-` is looked up again and emitted as an argument-less occurrence.
After validation the lookup cannot fail; the impossible branch leaves the
state unchanged. -/
def emitBundle (st : ScanState) : List Char → ScanState
  | [] => st
  | c :: rest =>
    match lookupShort st.options c with
    | some k => emitBundle (ca_parsed_opt st k none) rest
    | none => emitBundle st rest

/-- One iteration of the scan loop of `ca_construct_results`
(`cmdapp.c:447`), processing the token `cur`.  The loop state is the
mutable app state, the pending option `last` (`last_opt`) and the
`only_args_now` flag; `useEoo` is `app.use_end_of_options`. -/
def processToken (useEoo : Bool) (st : ScanState) (last : Option Nat)
    (onlyArgs : Bool) (cur : List Char) :
    Except ScanErr (ScanState × Option Nat × Bool) :=
  if onlyArgs then
    let (st, last) := ca_parsed_arg st last cur
    .ok (st, last, true)
  else if chAt cur 0 = '-' then
    -- handle '-' (common for stdin)
    if chAt cur 1 = nullc then
      let (st, last) := ca_parsed_arg st last cur
      .ok (st, last, onlyArgs)
    -- handle '--'
    else if cur = ['-', '-'] then
      if useEoo then .ok (st, last, true)
      else
        let (st, last) := ca_parsed_arg st last cur
        .ok (st, last, onlyArgs)
    -- at a new flag, a pending option must have had an optional argument;
    -- either way the pending option is then dropped
    else if last.isSome ∧ !(getOpt st.options (last.getD 0)).optArg then
      .error (.missingRequiredArg (getOpt st.options (last.getD 0)).long_opt)
    else
      if chAt cur 1 ≠ '-' then
        -- short option
        let flag := chAt cur 1
        match lookupShort st.options flag with
        | none => .error (.unknownShortFlag flag)
        | some k =>
          if chAt cur 2 ≠ nullc then
            if (getOpt st.options k).mflag then
              -- multiflag bundle: validate all, then emit all
              match validateBundle st.options (cur.drop 2) with
              | .error e => .error e
              | .ok _ => .ok (emitBundle st (cur.drop 1), none, onlyArgs)
            else
              -- attached argument, e.g. -I/usr/include
              if !(getOpt st.options k).takesArg then
                .error (.doesNotTakeArguments flag)
              else
                -- arg attached: emit at once
                .ok (ca_parsed_opt st k (some (cur.drop 2)), none, onlyArgs)
          else
            -- plain short option, no further characters
            if (getOpt st.options k).takesArg then .ok (st, some k, onlyArgs)
            else .ok (ca_parsed_opt st k none, none, onlyArgs)
      else
        -- long option
        match lookupLong st.options (cur.drop 2) with
        | none => .error (.unknownLongFlag cur)
        | some k =>
          if (getOpt st.options k).takesArg then .ok (st, some k, onlyArgs)
          else .ok (ca_parsed_opt st k none, none, onlyArgs)
  else
    let (st, last) := ca_parsed_arg st last cur
    .ok (st, last, onlyArgs)

/-- The scan loop of `ca_construct_results`, over the tokens after the
program name. -/
def constructLoop (useEoo : Bool) (st : ScanState) (last : Option Nat)
    (onlyArgs : Bool) : List (List Char) →
    Except ScanErr (ScanState × Option Nat)
  | [] => .ok (st, last)
  | cur :: rest =>
    match processToken useEoo st last onlyArgs cur with
    | .error e => .error e
    | .ok (st, last, onlyArgs) => constructLoop useEoo st last onlyArgs rest

/-- `ca_construct_results` (`cmdapp.c:432`): run the scan loop on the
tokens after the program name, then apply the end-of-input check: a
pending option whose argument is required is an error, and a pending
option with an optional argument is silently dropped. -/
def ca_construct_results (useEoo : Bool) (st : ScanState)
    (args : List (List Char)) : Except ScanErr ScanState :=
  match constructLoop useEoo st none false args with
  | .error e => .error e
  | .ok (st, last) =>
    match last with
    | some k =>
      if !(getOpt st.options k).optArg then
        .error (.missingRequiredArg (getOpt st.options k).long_opt)
      else .ok st
    | none => .ok st

/-- Verification failures of `ca_verify_results`: an unresolvable ref in a
quantifier clause (a configuration error), or a false verdict. -/
inductive VerifyErr
  | unknownRef (c : Char) (long : List Char)
  | constraintViolated (long : List Char)
deriving DecidableEq, Repr

/-- Whether the option referenced by short code `c` was passed; `false`
only matters when the ref resolves. -/
def refPassed (opts : List CaOpt) (c : Char) : Bool :=
  match lookupShort opts c with
  | some k => (getOpt opts k).was_passed
  | none => false

/-- Whether every ref resolves via short-code lookup. -/
def refsResolve (opts : List CaOpt) (cs : List Char) : Bool :=
  cs.all (fun c => (lookupShort opts c).isSome)

/-- The ANY loop (`cmdapp.c:581`): verdict starts false; the loop breaks
(returning true) at the first passed ref, so refs after that point are not
resolved at all.  `none` is the unresolvable-ref error. -/
def anyLoop (opts : List CaOpt) : List Char → Option Bool
  | [] => some false
  | c :: rest =>
    match lookupShort opts c with
    | none => none
    | some k =>
      if (getOpt opts k).was_passed then some true else anyLoop opts rest

/-- The ALL loop (`cmdapp.c:599`): verdict starts true; the loop breaks
(returning false) at the first ref not passed. -/
def allLoop (opts : List CaOpt) : List Char → Option Bool
  | [] => some true
  | c :: rest =>
    match lookupShort opts c with
    | none => none
    | some k =>
      if !(getOpt opts k).was_passed then some false else allLoop opts rest

/-- The ONLY loop (`cmdapp.c:617`): `allowed` counts the refs passed so
far; after EACH ref, if `count > allowed` the verdict is set false (and is
never set back to true).  The loop never breaks, so every ref is resolved
even after the verdict is already false. -/
def onlyLoop (opts : List CaOpt) (count : Nat) :
    List Char → Nat → Bool → Option Bool
  | [], _, verdict => some verdict
  | c :: rest, allowed, verdict =>
    match lookupShort opts c with
    | none => none
    | some k =>
      let allowed := if (getOpt opts k).was_passed then allowed + 1 else allowed
      let verdict := if count > allowed then false else verdict
      onlyLoop opts count rest allowed verdict

/-- The verdict switch of `ca_verify_results` (`cmdapp.c:580`), before
negation.  `count` is `app.options_count`. -/
def verdictFor (opts : List CaOpt) (count : Nat) (o : CaOpt) : Option Bool :=
  match o.quantifier with
  | .anyQ => anyLoop opts o.refs
  | .allQ => allLoop opts o.refs
  | .onlyQ => onlyLoop opts count o.refs 0 true
  | .noneQ => some true

/-- The verdict after the negation flip (`cmdapp.c:647`). -/
def finalVerdict (opts : List CaOpt) (count : Nat) (o : CaOpt) :
    Option Bool :=
  (verdictFor opts count o).map (fun v => if o.negated then !v else v)

/-- The result loop of `ca_verify_results` (`cmdapp.c:572`): results with
an option are checked in scan order; the first unresolvable ref or false
verdict aborts. -/
def verifyLoop (opts : List CaOpt) (count : Nat) :
    List PResult → Except VerifyErr Unit
  | [] => .ok ()
  | r :: rest =>
    match r.opt with
    | none => verifyLoop opts count rest
    | some k =>
      let o := getOpt opts k
      match finalVerdict opts count o with
      | none => .error (.unknownRef (chAt o.refs 0) o.long_opt)
      | some v =>
        if v then verifyLoop opts count rest
        else .error (.constraintViolated o.long_opt)

/-- `ca_verify_results` (`cmdapp.c:570`). -/
def ca_verify_results (st : ScanState) : Except VerifyErr Unit :=
  verifyLoop st.options st.options_count st.results

/-- Which callbacks are configured (`app.opt_callback`,
`app.arg_callback`); `false` models a `NULL` function pointer. -/
structure Callbacks where
  opt_callback : Bool
  arg_callback : Bool
deriving DecidableEq, Repr

/-- One iteration of the dispatch loop of `ca_parse` (`cmdapp.c:731`).
`none` models the invocation of a `NULL` callback pointer, which the code
performs unconditionally (`cmdapp.c:741` and `cmdapp.c:745` have no null
check). -/
def dispatchOne (overrideHelp overrideVersion : Bool) (cbs : Callbacks)
    (opts : List CaOpt) (r : PResult) : Option Unit :=
  match r.opt with
  | some k =>
    let o := getOpt opts k
    if !overrideHelp && o.long_opt = "help".toList then some ()
    else if !overrideVersion && o.long_opt = "version".toList then some ()
    else if cbs.opt_callback then some () else none
  | none => if cbs.arg_callback then some () else none

/-- The dispatch loop over all results, in scan order. -/
def dispatchAll (overrideHelp overrideVersion : Bool) (cbs : Callbacks)
    (opts : List CaOpt) : List PResult → Option Unit
  | [] => some ()
  | r :: rest =>
    match dispatchOne overrideHelp overrideVersion cbs opts r with
    | some _ => dispatchAll overrideHelp overrideVersion cbs opts rest
    | none => none

/-- The reset at the start of `ca_parse` (`cmdapp.c:712`): clear every
option's `was_passed`, zero `options_count`, empty the results array. -/
def resetState (opts : List CaOpt) : ScanState :=
  { options := opts.map (fun o => { o with was_passed := false }),
    results := [],
    options_count := 0 }

/-- The outcome of `ca_parse`: success (return 0), a scan or verification
failure (return 1), or the undefined behavior of calling an unset
callback. -/
inductive ParseOutcome
  | success
  | scanFailure (e : ScanErr)
  | verifyFailure (e : VerifyErr)
  | nullCallbackInvoked
deriving DecidableEq, Repr

/-- `ca_parse` after its reset phase: scan, verify, dispatch. -/
def caParseAfterReset (useEoo overrideHelp overrideVersion : Bool)
    (cbs : Callbacks) (st0 : ScanState) (args : List (List Char)) :
    ParseOutcome :=
  match ca_construct_results useEoo st0 args with
  | .error e => .scanFailure e
  | .ok st =>
    match ca_verify_results st with
    | .error e => .verifyFailure e
    | .ok _ =>
      match dispatchAll overrideHelp overrideVersion cbs st.options
          st.results with
      | some _ => .success
      | none => .nullCallbackInvoked

/-- `ca_parse` (`cmdapp.c:711`): reset the per-scan state, then scan the
tokens after the program name, verify, and dispatch. -/
def ca_parse (opts : List CaOpt) (useEoo overrideHelp overrideVersion : Bool)
    (cbs : Callbacks) (args : List (List Char)) : ParseOutcome :=
  caParseAfterReset useEoo overrideHelp overrideVersion cbs
    (resetState opts) args

/-- Build the `struct ca_opt` of `ca_opt` (`cmdapp.c:356`) from the parsed
behavior. -/
def mkOpt (short : Char) (long : List Char) (b : BehaviorOut)
    (argName : Option (List Char)) : CaOpt :=
  { short_opt := short, long_opt := long, takesArg := b.takesArg,
    optArg := b.optArg, mflag := b.mflag, negated := b.negated,
    quantifier := b.quantifier, refs := b.refs, arg_name := argName,
    was_passed := false }

/-- `ca_opt` (`cmdapp.c:343`).  The caller's result slot is
`Option (Option (List Char))`: the outer layer models a `NULL` pointer,
the inner the pointed-to string (or `NULL`).  Returns the C status code
(0 success, 1 failure), the registry, and the final contents of the
result slot.  (`long_opt` and `behavior` cannot be `NULL` here since they
are values; the corresponding check always passes.) -/
def ca_opt (reg : List CaOpt) (short : Char) (long : List Char)
    (behavior : List Char) (result : Option (Option (List Char))) :
    Nat × List CaOpt × Option (Option (List Char)) :=
  if short ≠ nullc && !ca_is_short_flag short then (1, reg, result)
  else
    match ca_parse_opt_behavior behavior with
    | none => (1, reg, result)
    | some b =>
      if b.takesArg then
        match result with
        | none => (1, reg, result)
        | some v =>
          (0, reg ++ [mkOpt short long b (some (v.getD "ARG".toList))],
           some none)
      else (0, reg ++ [mkOpt short long b none], result)

/-- Whether every trailing bundle character resolves to a registered
multiflag option — the condition the validation loop at `cmdapp.c:506`
checks. -/
def bundleOk (opts : List CaOpt) (cs : List Char) : Bool :=
  cs.all (fun c =>
    match lookupShort opts c with
    | some k => (getOpt opts k).mflag
    | none => false)

/-- The parse results the emission loop at `cmdapp.c:519` produces: one
argument-less occurrence per bundle character, in token order. -/
def bundleResults (opts : List CaOpt) : List Char → List PResult
  | [] => []
  | c :: rest =>
    match lookupShort opts c with
    | some k => { opt := some k, arg := none } :: bundleResults opts rest
    | none => bundleResults opts rest

/-- Modelled from the spec: the behavior grammar of section 4.1, used only
as the comparison point for refinement claims about the compiler.  This is
the quantifier clause: an optional run of `?`, space, tab; an optional
`!`; a mandatory introducer `@`, `&` or `<`; an alphanumeric refs tail.
An absent clause (empty input) is allowed. -/
def specQuantClause : List Char → Bool
  | [] => true
  | s@(_ :: _) =>
    let s1 := s.dropWhile (fun c => c = '?' || c = ' ' || c = '\t')
    let s2 := if s1.head? = some '!' then s1.tail else s1
    match s2 with
    | [] => false
    | intro :: tail =>
      (intro = '@' || intro = '&' || intro = '<') && tail.all ca_is_short_flag

/-- Modelled from the spec: acceptance by the full behavior grammar of
section 4.1 — empty, or `.`/`.?`/`*` prefix followed by an optional
quantifier clause, or (with no prefix) a non-empty quantifier clause. -/
def specGrammarAccepts : List Char → Bool
  | [] => true
  | '.' :: '?' :: rest => specQuantClause rest
  | '.' :: rest => specQuantClause rest
  | '*' :: rest => specQuantClause rest
  | s => specQuantClause s

-- ### Helper lemmas about the scanner state

/-- `getD` on a `cons` at a successor index. -/
theorem getOpt_cons_succ (o : CaOpt) (rest : List CaOpt) (n : Nat) :
    getOpt (o :: rest) (n + 1) = getOpt rest n := rfl

/-- `setPassed` on a `cons` at a successor index. -/
theorem setPassed_cons_succ (o : CaOpt) (rest : List CaOpt) (n : Nat) :
    setPassed (o :: rest) (n + 1) = o :: setPassed rest n := rfl

/-- Marking an option passed does not change any short-code lookup. -/
theorem lookupShort_setPassed (opts : List CaOpt) (k : Nat) (c : Char) :
    lookupShort (setPassed opts k) c = lookupShort opts c := by
  induction opts generalizing k with
  | nil => rfl
  | cons o rest ih =>
    cases k with
    | zero => simp [setPassed, getOpt, lookupShort]
    | succ n => rw [setPassed_cons_succ]; simp [lookupShort, ih]

/-- Marking an option passed does not change the results the emission
loop will attach for the remaining bundle characters. -/
theorem bundleResults_setPassed (opts : List CaOpt) (k : Nat)
    (cs : List Char) :
    bundleResults (setPassed opts k) cs = bundleResults opts cs := by
  induction cs with
  | nil => rfl
  | cons c rest ih =>
    simp only [bundleResults, lookupShort_setPassed]
    cases lookupShort opts c with
    | none => exact ih
    | some m => rw [ih]

/-- The emission loop appends exactly one argument-less occurrence per
bundle character, in order. -/
theorem emitBundle_results (st : ScanState) (cs : List Char) :
    (emitBundle st cs).results = st.results ++ bundleResults st.options cs := by
  induction cs generalizing st with
  | nil => simp [emitBundle, bundleResults]
  | cons c rest ih =>
    simp only [emitBundle, bundleResults]
    cases hl : lookupShort st.options c with
    | none => exact ih st
    | some k =>
      rw [ih (ca_parsed_opt st k none)]
      simp [ca_parsed_opt, bundleResults_setPassed, hl]

/-- When every bundle character validates, the validation loop returns
success. -/
theorem validateBundle_ok (opts : List CaOpt) (cs : List Char)
    (h : bundleOk opts cs = true) : validateBundle opts cs = .ok () := by
  induction cs with
  | nil => rfl
  | cons c rest ih =>
    cases hl : lookupShort opts c with
    | none => simp [bundleOk, hl] at h
    | some k =>
      simp only [bundleOk, List.all_cons, hl, Bool.and_eq_true] at h
      simp only [validateBundle, hl]
      simp only [h.1, if_true]
      exact ih h.2

/-- When some bundle character fails lookup or is not multiflag, the
validation loop fails. -/
theorem validateBundle_err (opts : List CaOpt) (cs : List Char)
    (h : bundleOk opts cs = false) :
    ∃ e, validateBundle opts cs = .error e := by
  induction cs with
  | nil => exact absurd h (by simp [bundleOk])
  | cons c rest ih =>
    cases hl : lookupShort opts c with
    | none =>
      exact ⟨.unknownShortFlag c, by simp only [validateBundle, hl]⟩
    | some k =>
      simp only [bundleOk, List.all_cons, hl, Bool.and_eq_false_iff] at h
      by_cases hm : (getOpt opts k).mflag = true
      · simp only [validateBundle, hl, hm, if_true]
        rcases h with h | h
        · rw [hm] at h; cases h
        · exact ih h
      · exact ⟨.mustBePassedSeparately c,
          by simp [validateBundle, hl, hm]⟩

/-- When every bundle character validates, the emitted results are the
per-character argument-less occurrences. -/
theorem bundleResults_of_ok (opts : List CaOpt) (cs : List Char)
    (h : bundleOk opts cs = true) :
    bundleResults opts cs =
      cs.map (fun x => { opt := lookupShort opts x, arg := none }) := by
  induction cs with
  | nil => rfl
  | cons c rest ih =>
    cases hl : lookupShort opts c with
    | none => simp [bundleOk, hl] at h
    | some k =>
      simp only [bundleOk, List.all_cons, hl, Bool.and_eq_true] at h
      simp only [bundleResults, List.map, hl]
      rw [ih h.2]

-- ### Helper lemmas about the ONLY loop

/-- Once the ONLY verdict is false it is never set back to true. -/
theorem onlyLoop_false (opts : List CaOpt) (count : Nat) (refs : List Char)
    (allowed : Nat) (h : refsResolve opts refs = true) :
    onlyLoop opts count refs allowed false = some false := by
  induction refs generalizing allowed with
  | nil => rfl
  | cons c rest ih =>
    cases hl : lookupShort opts c with
    | none => simp [refsResolve, hl] at h
    | some k =>
      simp only [refsResolve, List.all_cons, hl, Bool.and_eq_true] at h
      simp only [onlyLoop, hl, ite_self]
      exact ih _ h.2

/-- When `count` is already at most the running `allowed` counter, the
ONLY verdict stays true: `allowed` only grows along the loop. -/
theorem onlyLoop_true_of_le (opts : List CaOpt) (count : Nat)
    (refs : List Char) (allowed : Nat) (h : refsResolve opts refs = true)
    (hle : count ≤ allowed) :
    onlyLoop opts count refs allowed true = some true := by
  induction refs generalizing allowed with
  | nil => rfl
  | cons c rest ih =>
    cases hl : lookupShort opts c with
    | none => simp [refsResolve, hl] at h
    | some k =>
      simp only [refsResolve, List.all_cons, hl, Bool.and_eq_true] at h
      simp only [onlyLoop, hl]
      have hle2 : count ≤
          (if (getOpt opts k).was_passed then allowed + 1 else allowed) := by
        split
        · exact Nat.le_succ_of_le hle
        · exact hle
      rw [if_neg (Nat.not_lt.mpr hle2)]
      exact ih _ h.2 hle2

/-- For a non-negated ONLY option with non-empty refs, the verifier's
verdict is decided entirely by the first ref: since the comparison
`options_count > allowed_count` runs after every ref and a false verdict
is permanent, the binding comparison is the one after the first ref. -/
theorem only_verdict_first_ref (opts : List CaOpt) (count : Nat) (o : CaOpt)
    (c : Char) (rest : List Char) (hq : o.quantifier = .onlyQ)
    (hneg : o.negated = false) (hrefs : o.refs = c :: rest)
    (hres : refsResolve opts (c :: rest) = true) :
    finalVerdict opts count o =
      some (decide (count ≤ if refPassed opts c then 1 else 0)) := by
  cases hl : lookupShort opts c with
  | none => simp [refsResolve, hl] at hres
  | some k =>
    simp only [refsResolve, List.all_cons, hl, Bool.and_eq_true] at hres
    have hrest : refsResolve opts rest = true := hres.2
    have honly : onlyLoop opts count (c :: rest) 0 true =
        some (decide (count ≤ if refPassed opts c then 1 else 0)) := by
      simp only [onlyLoop, hl, refPassed]
      by_cases hp : (getOpt opts k).was_passed = true
      · simp only [if_pos hp, Nat.zero_add]
        by_cases hc : count > 1
        · rw [if_pos hc, onlyLoop_false opts count rest 1 hrest]
          have hn : ¬ count ≤ 1 := by omega
          simp [hn]
        · rw [if_neg hc, onlyLoop_true_of_le opts count rest 1 hrest
            (Nat.not_lt.mp hc)]
          simp [Nat.not_lt.mp hc]
      · simp only [if_neg hp]
        by_cases hc : count > 0
        · rw [if_pos hc, onlyLoop_false opts count rest 0 hrest]
          have hn : ¬ count ≤ 0 := by omega
          simp [hn]
        · rw [if_neg hc, onlyLoop_true_of_le opts count rest 0 hrest
            (Nat.not_lt.mp hc)]
          simp [Nat.not_lt.mp hc]
    simp [finalVerdict, verdictFor, hq, hrefs, hneg, honly]

/-- Core of the multiflag-bundle case of the scanner: for a short token
`-c cs...` whose first flag resolves to a multiflag option, processing
reduces to the validate-then-emit sequence. -/
theorem processToken_bundle (opts : List CaOpt) (res : List PResult)
    (cnt : Nat) (useEoo : Bool) (c d : Char) (ds : List Char) (k : Nat)
    (hl : lookupShort opts c = some k) (hm : (getOpt opts k).mflag = true)
    (hc0 : c ≠ nullc) (hcd : c ≠ '-') (hd : d ≠ nullc) :
    processToken useEoo ⟨opts, res, cnt⟩ none false ('-' :: c :: d :: ds) =
      (match validateBundle opts (d :: ds) with
       | .error e => .error e
       | .ok _ =>
          .ok (emitBundle ⟨opts, res, cnt⟩ (c :: d :: ds), none, false)) := by
  simp [processToken, chAt, hc0, hcd, hd, hl, hm]

/-- C6: For a short token `-abc` whose first flag resolves to a
multiflag-capable option (and which is a well-formed C token: no interior
NUL, first flag not `-`), if every subsequent character resolves to a
registered multiflag option the scanner emits exactly one argument-less
occurrence per bundle character, in left-to-right token order; if any
subsequent character fails lookup or is not multiflag, processing the
token fails without emitting any result. -/
theorem multiflag_bundle_scan (opts : List CaOpt) (res : List PResult)
    (cnt : Nat) (useEoo : Bool) (c : Char) (cs : List Char) (k : Nat)
    (hl : lookupShort opts c = some k) (hm : (getOpt opts k).mflag = true)
    (hc0 : c ≠ nullc) (hcd : c ≠ '-') (hcs : cs ≠ []) (hnn : nullc ∉ cs) :
    (bundleOk opts cs = true →
      processToken useEoo ⟨opts, res, cnt⟩ none false ('-' :: c :: cs) =
        .ok (emitBundle ⟨opts, res, cnt⟩ (c :: cs), none, false) ∧
      (emitBundle ⟨opts, res, cnt⟩ (c :: cs)).results =
        res ++ (c :: cs).map
          (fun x => { opt := lookupShort opts x, arg := none })) ∧
    (bundleOk opts cs = false →
      ∃ e, processToken useEoo ⟨opts, res, cnt⟩ none false ('-' :: c :: cs) =
        .error e) := by
  obtain ⟨d, ds, rfl⟩ : ∃ d ds, cs = d :: ds := by
    cases cs with
    | nil => exact absurd rfl hcs
    | cons d ds => exact ⟨d, ds, rfl⟩
  have hd : d ≠ nullc := by
    intro h
    exact hnn (h ▸ List.mem_cons_self d ds)
  rw [processToken_bundle opts res cnt useEoo c d ds k hl hm hc0 hcd hd]
  constructor
  · intro hok
    rw [validateBundle_ok opts (d :: ds) hok]
    refine ⟨rfl, ?_⟩
    have hall : bundleOk opts (c :: d :: ds) = true := by
      simp only [bundleOk, List.all_cons, hl, hm, Bool.true_and]
      exact hok
    rw [emitBundle_results, bundleResults_of_ok opts (c :: d :: ds) hall]
  · intro hbad
    obtain ⟨e, he⟩ := validateBundle_err opts (d :: ds) hbad
    exact ⟨e, by rw [he]⟩

-- ### Concrete registries used to evaluate the code at failing inputs

/-- Registry with `--expr` declared `.?` (optional argument) and `--file`
declared `.` (required argument), registered through `ca_opt`. -/
def regExprFile : List CaOpt :=
  (ca_opt (ca_opt [] 'e' "expr".toList ".?".toList (some none)).2.1
    'f' "file".toList ".".toList (some none)).2.1

/-- Registry with `-o` declared `<oa` (ONLY, refs `o`,`a`) and `-a`
declared with empty behavior. -/
def regOnlyOA : List CaOpt :=
  (ca_opt (ca_opt [] 'o' "oo".toList "<oa".toList none).2.1
    'a' "aa".toList [] none).2.1

/-- Registry with only `--file` declared `.` (required argument). -/
def regFileOnly : List CaOpt :=
  (ca_opt [] 'f' "file".toList ".".toList (some none)).2.1

/-- Registry with one plain option `-a`. -/
def regPlainA : List CaOpt := (ca_opt [] 'a' "aa".toList [] none).2.1

/-- Registry with `-a`, `-b`, `-c` all declared `*` (multiflag). -/
def regMulti3 : List CaOpt :=
  (ca_opt (ca_opt (ca_opt [] 'a' "aa".toList "*".toList none).2.1
    'b' "bb".toList "*".toList none).2.1 'c' "cc".toList "*".toList none).2.1

-- ### Claim theorems

/-- C1 (code bug, evaluation at the failing input): with `expr` declared
`.?` and `file` declared `.`, scanning `--expr --file x` yields exactly ONE
result, `{file, "x"}`, with `options_count` 0 and `expr`'s `was_passed`
still false: at the flag boundary the scanner drops the pending
optional-argument option without emitting the claimed `{expr, none}`
result (`cmdapp.c:477` clears `last_opt` without calling
`ca_parsed_opt`). -/
theorem pending_optional_dropped_eval :
    (ca_construct_results true (resetState regExprFile)
      ["--expr".toList, "--file".toList, ['x']]).toOption.map
      (fun st => (st.results, st.options_count,
        (getOpt st.options 0).was_passed)) =
      some ([{ opt := some 1, arg := some ['x'] }], 0, false) ∧
    (getOpt regExprFile 0).long_opt = "expr".toList ∧
    (getOpt regExprFile 1).long_opt = "file".toList := by decide

/-- C2 (counterexample): scanning `-o -a` with `-o` declared `<oa` gives a
final `options_count` of 2 and exactly 2 passed refs, so the claim as
stated predicts success, yet `ca_verify_results` rejects the scan: the
comparison runs after each ref, and after the first ref (`o`) the count 2
already exceeds the running allowed count 1. -/
theorem only_final_counts_counterexample :
    (ca_construct_results true (resetState regOnlyOA)
      [['-', 'o'], ['-', 'a']]).toOption.map
      (fun st =>
        (st.options_count,
         (if refPassed st.options 'o' then 1 else 0) +
           (if refPassed st.options 'a' then 1 else 0),
         (getOpt st.options 0).quantifier,
         (getOpt st.options 0).negated,
         (getOpt st.options 0).was_passed,
         (ca_verify_results st).toOption.isNone)) =
      some (2, 2, .onlyQ, false, true, true) := by decide

/-- Witness for `only_verdict_first_ref` at the registry of the
counterexample, with both options marked passed and `options_count` 2. -/
theorem only_verdict_first_ref_witness :
    finalVerdict (setPassed (setPassed (resetState regOnlyOA).options 0) 1) 2
      (getOpt (setPassed (setPassed (resetState regOnlyOA).options 0) 1) 0) =
      some (decide (2 ≤ if refPassed (setPassed (setPassed
        (resetState regOnlyOA).options 0) 1) 'o' then 1 else 0)) :=
  only_verdict_first_ref (setPassed (setPassed
      (resetState regOnlyOA).options 0) 1) 2
    (getOpt (setPassed (setPassed (resetState regOnlyOA).options 0) 1) 0)
    'o' ['a'] (by decide) (by decide) (by decide) (by decide)

/-- C3 (code bug, evaluation at the failing input): scanning `--file x`
with `file` declared `.` produces the option-occurrence result
`{file, "x"}` and sets `was_passed`, yet leaves `options_count` at 0:
`ca_parsed_arg` (`cmdapp.c:415`), unlike `ca_parsed_opt`, never increments
the counter, contradicting the claim (and the header's description of
`options_count` as the number of options parsed). -/
theorem parsed_arg_count_eval :
    (ca_construct_results true (resetState regFileOnly)
      ["--file".toList, ['x']]).toOption.map
      (fun st => (st.results, st.options_count,
        (getOpt st.options 0).was_passed)) =
      some ([{ opt := some 0, arg := some ['x'] }], 0, true) := by decide

/-- C4 (code bug, evaluation at the failing input): the behavior string
`*@ab` is accepted by the section 4.1 grammar (multiflag, ANY over refs
`a`,`b`) but `ca_parse_opt_behavior` rejects it: the skip loop at
`cmdapp.c:122` scans over `".? \t"` only, never over `*`, so the
quantifier switch lands on `*` and returns failure.  No `*`-prefixed
behavior with a quantifier can compile. -/
theorem multiflag_quantifier_eval :
    ca_parse_opt_behavior "*@ab".toList = none ∧
    specGrammarAccepts "*@ab".toList = true := by decide

/-- C5 (code bug, evaluation at the failing input): with no callbacks
configured, a successful scan+verify of `-a` reaches the dispatch loop,
which invokes the `NULL` option callback (`cmdapp.c:741` has no null
check), contradicting the claim and `cmdapp.h`'s promise that an unset
callback "is not invoked". -/
theorem null_callback_eval :
    ca_parse regPlainA true false false
      { opt_callback := false, arg_callback := false } [['-', 'a']] =
      .nullCallbackInvoked := by decide

/-- Witness for `multiflag_bundle_scan`: registry `a`,`b`,`c` all
multiflag, token `-abc`. -/
theorem multiflag_bundle_scan_witness :
    (bundleOk (resetState regMulti3).options ['b', 'c'] = true →
      processToken true ⟨(resetState regMulti3).options, [], 0⟩ none false
          ('-' :: 'a' :: ['b', 'c']) =
        .ok (emitBundle ⟨(resetState regMulti3).options, [], 0⟩
          ('a' :: ['b', 'c']), none, false) ∧
      (emitBundle ⟨(resetState regMulti3).options, [], 0⟩
          ('a' :: ['b', 'c'])).results =
        [] ++ ('a' :: ['b', 'c']).map
          (fun x => { opt := lookupShort (resetState regMulti3).options x,
                      arg := none })) ∧
    (bundleOk (resetState regMulti3).options ['b', 'c'] = false →
      ∃ e, processToken true ⟨(resetState regMulti3).options, [], 0⟩ none
          false ('-' :: 'a' :: ['b', 'c']) = .error e) :=
  multiflag_bundle_scan (resetState regMulti3).options [] 0 true 'a'
    ['b', 'c'] 0 (by decide) (by decide) (by decide) (by decide) (by decide)
    (by decide)

/-- C7 (counterexample): the behavior string `..` violates the section 4.1
grammar (after the `.` prefix, `.` is not `?`, not skippable, not `!`,
not an introducer), yet `ca_opt` accepts it and appends the option: for
any two-character string starting with `.`, the early return at
`cmdapp.c:108` fires before the quantifier switch. -/
theorem behavior_grammar_counterexample :
    specGrammarAccepts "..".toList = false ∧
    (ca_opt [] 'a' "aa".toList "..".toList (some none)).1 = 0 ∧
    (ca_opt [] 'a' "aa".toList "..".toList (some none)).2.1 =
      [mkOpt 'a' "aa".toList { takesArg := true } (some "ARG".toList)] := by
  decide

/-- C7 (amended): every registration whose behavior string is rejected by
the compiler `ca_parse_opt_behavior` returns failure and leaves the
registry (and the caller's result slot) unchanged. -/
theorem rejected_behavior_leaves_registry (reg : List CaOpt) (short : Char)
    (long behavior : List Char) (result : Option (Option (List Char)))
    (h : ca_parse_opt_behavior behavior = none) :
    ca_opt reg short long behavior result = (1, reg, result) := by
  by_cases hc : (short ≠ nullc && !ca_is_short_flag short) = true
  · simp only [ca_opt, if_pos hc]
  · have hcc := Bool.eq_false_iff.mpr hc
    simp only [ca_opt, hcc, Bool.false_eq_true, if_false, h]

/-- Witness for `rejected_behavior_leaves_registry` at the rejected
behavior string `z`. -/
theorem rejected_behavior_leaves_registry_witness :
    ca_parse_opt_behavior ['z'] = none ∧
    ca_opt [] 'a' "aa".toList ['z'] none = (1, [], none) :=
  ⟨by decide,
    rejected_behavior_leaves_registry [] 'a' "aa".toList ['z'] none
      (by decide)⟩

/-- C8: `ca_parse` is the composition of `resetState` with the rest of the
pipeline, and the reset state has `was_passed` false on every option,
`options_count` zero and an empty result sequence — for every registry,
hence regardless of the outcome of any earlier scan. -/
theorem parse_resets_scan_state (opts : List CaOpt)
    (useEoo overrideHelp overrideVersion : Bool) (cbs : Callbacks)
    (args : List (List Char)) :
    ca_parse opts useEoo overrideHelp overrideVersion cbs args =
      caParseAfterReset useEoo overrideHelp overrideVersion cbs
        (resetState opts) args ∧
    ((resetState opts).options.all fun o => !o.was_passed) = true ∧
    (resetState opts).options_count = 0 ∧
    (resetState opts).results = [] := by
  refine ⟨rfl, ?_, rfl, rfl⟩
  simp [resetState]

/-- C9: for every registry, scanning an argument vector with no tokens
beyond the program name succeeds and yields an empty result sequence. -/
theorem empty_scan_ok (opts : List CaOpt) (useEoo : Bool) :
    ca_construct_results useEoo (resetState opts) [] =
      .ok (resetState opts) ∧
    (resetState opts).results = [] :=
  ⟨rfl, rfl⟩

/-- C10: when the compiled behavior takes an argument, `ca_opt` fails on a
`NULL` result pointer; with a non-null result pointer it succeeds, the
string previously stored in the slot becomes `arg_name` (defaulting to
`"ARG"` when the slot held `NULL`), and the slot is reset to `NULL`. -/
theorem arg_option_result_slot (reg : List CaOpt) (short : Char)
    (long behavior : List Char) (b : BehaviorOut) (v : Option (List Char))
    (hb : ca_parse_opt_behavior behavior = some b)
    (harg : b.takesArg = true)
    (hshort : short = nullc ∨ ca_is_short_flag short = true) :
    ca_opt reg short long behavior none = (1, reg, none) ∧
    ca_opt reg short long behavior (some v) =
      (0, reg ++ [mkOpt short long b (some (v.getD "ARG".toList))],
       some none) := by
  have hcc : (short ≠ nullc && !ca_is_short_flag short) = false := by
    rcases hshort with h | h <;> simp [h]
  constructor <;>
    simp only [ca_opt, hcc, Bool.false_eq_true, if_false, hb, harg,
      eq_self_iff_true, if_true]

/-- Witness for `arg_option_result_slot` at behavior `.` with the slot
holding `"FILE"`. -/
theorem arg_option_result_slot_witness :
    ca_opt [] 'f' "file".toList ".".toList none = (1, [], none) ∧
    ca_opt [] 'f' "file".toList ".".toList (some (some "FILE".toList)) =
      (0, [] ++ [mkOpt 'f' "file".toList { takesArg := true }
        (some ((some "FILE".toList).getD "ARG".toList))], some none) :=
  arg_option_result_slot [] 'f' "file".toList ".".toList
    { takesArg := true } (some "FILE".toList) (by decide) rfl
    (Or.inr (by decide))
